import Mathlib

/-!
Verification of the LinkedIn post-curation core: tag canonicalization
(`preprocessing_service.py`), exemplar retrieval (`few_shot.py`), and quality
scoring/validation (`validators.py`, `schemas/post.py`).

Python strings are modelled as `List Char` (`Str`); Python `int` as `Int`;
Python `float` scores as `ℚ` (every score addend is a multiple of 0.5, so
float arithmetic is exact and `ℚ` is a faithful model).  Python dicts used as
tag mappings are modelled as association lists with first-match lookup.
-/

/-- Python strings, modelled as their character sequences. -/
abbrev Str := List Char

/-- ASCII whitespace recognized by Python's `str.strip` / `str.split`. -/
def isWs (c : Char) : Bool :=
  c = ' ' ∨ c = '\t' ∨ c = '\n' ∨ c = '\r' ∨ c = '\x0b' ∨ c = '\x0c'

/-- Python `str.strip()`: remove leading and trailing whitespace. -/
def pyStrip (s : Str) : Str :=
  ((s.dropWhile isWs).reverse.dropWhile isWs).reverse

/-- Helper for `pySplitWs`: accumulates the current word (reversed). -/
def pySplitWsAux : Str → Str → List Str
  | [], cur => if cur = [] then [] else [cur.reverse]
  | c :: cs, cur =>
    if isWs c then
      (if cur = [] then pySplitWsAux cs [] else cur.reverse :: pySplitWsAux cs [])
    else
      pySplitWsAux cs (c :: cur)

/-- Python `str.split()` with no argument: split on whitespace runs, dropping
empty fields.  `pySplitWs [] = []`, matching `''.split() == []`. -/
def pySplitWs (s : Str) : List Str := pySplitWsAux s []

/-- Helper for `pySplitNl`: accumulates the current segment (reversed). -/
def pySplitNlAux : Str → Str → List Str
  | [], cur => [cur.reverse]
  | c :: cs, cur =>
    if c = '\n' then cur.reverse :: pySplitNlAux cs [] else pySplitNlAux cs (c :: cur)

/-- Python `str.split('\n')`: split at every newline, keeping empty segments.
`pySplitNl [] = [[]]`, matching `''.split('\n') == ['']`. -/
def pySplitNl (s : Str) : List Str := pySplitNlAux s []

/-- Python `str.lower()` (ASCII). -/
def pyLower (s : Str) : Str := s.map Char.toLower

/-- Helper for `pyTitle`: the boolean records whether the previous character
was alphabetic (Python title-cases the first letter of every run of cased
characters and lowercases the rest). -/
def pyTitleAux : Bool → Str → Str
  | _, [] => []
  | prevAlpha, c :: cs =>
    (if c.isAlpha then (if prevAlpha then c.toLower else c.toUpper) else c)
      :: pyTitleAux c.isAlpha cs

/-- Python `str.title()` (ASCII). -/
def pyTitle (s : Str) : Str := pyTitleAux false s

/-- Is `pat` a prefix of `s`?  (Decidable, characterwise.) -/
def isPrefixOfCL : Str → Str → Bool
  | [], _ => true
  | _ :: _, [] => false
  | a :: as, b :: bs => if a = b then isPrefixOfCL as bs else false

/-- Python's substring operator `pat in s`. -/
def containsSub (pat : Str) : Str → Bool
  | [] => isPrefixOfCL pat []
  | c :: rest => isPrefixOfCL pat (c :: rest) || containsSub pat rest

/-- Membership test with `=` semantics, modelling Python's `x in list`. -/
def memB (x : Str) (l : List Str) : Bool := l.any (fun y => decide (y = x))

/-- Helper for `dedupFirst`: `seen` holds the elements already emitted. -/
def dedupFirstAux {α : Type} [DecidableEq α] : List α → List α → List α
  | _, [] => []
  | seen, a :: as =>
    if a ∈ seen then dedupFirstAux seen as else a :: dedupFirstAux (a :: seen) as

/-- Order-preserving deduplication keeping the FIRST occurrence of each
element, modelling Python's `dict.fromkeys` idiom. -/
def dedupFirst {α : Type} [DecidableEq α] (l : List α) : List α := dedupFirstAux [] l

/-- A tag mapping (Python dict of str → str) as an association list. -/
abbrev TagMap := List (Str × Str)

/-- Python `dict.get k`: first-match association lookup. -/
def tmGet : TagMap → Str → Option Str
  | [], _ => none
  | (k, v) :: rest, key => if k = key then some v else tmGet rest key

theorem mem_dedupFirstAux {α : Type} [DecidableEq α] (x : α) :
    ∀ (l seen : List α), x ∈ dedupFirstAux seen l ↔ (x ∈ l ∧ x ∉ seen) := by
  intro l
  induction l with
  | nil => simp [dedupFirstAux]
  | cons a as ih =>
    intro seen
    by_cases ha : a ∈ seen
    · rw [dedupFirstAux, if_pos ha, ih]
      constructor
      · rintro ⟨h1, h2⟩
        exact ⟨List.mem_cons_of_mem a h1, h2⟩
      · rintro ⟨h1, h2⟩
        rcases List.mem_cons.mp h1 with rfl | h1
        · exact absurd ha h2
        · exact ⟨h1, h2⟩
    · rw [dedupFirstAux, if_neg ha]
      simp only [List.mem_cons, ih, List.mem_cons]
      constructor
      · rintro (rfl | ⟨h1, h2⟩)
        · exact ⟨Or.inl rfl, ha⟩
        · refine ⟨Or.inr h1, fun hc => h2 (Or.inr hc)⟩
      · rintro ⟨rfl | h1, h2⟩
        · exact Or.inl rfl
        · by_cases hx : x = a
          · exact Or.inl hx
          · exact Or.inr ⟨h1, by rintro (h | h) <;> [exact hx h; exact h2 h]⟩

theorem mem_dedupFirst {α : Type} [DecidableEq α] (x : α) (l : List α) :
    x ∈ dedupFirst l ↔ x ∈ l := by
  rw [dedupFirst, mem_dedupFirstAux]
  simp

theorem nodup_dedupFirstAux {α : Type} [DecidableEq α] :
    ∀ (l seen : List α), (dedupFirstAux seen l).Nodup := by
  intro l
  induction l with
  | nil => simp [dedupFirstAux]
  | cons a as ih =>
    intro seen
    by_cases ha : a ∈ seen
    · rw [dedupFirstAux, if_pos ha]
      exact ih seen
    · rw [dedupFirstAux, if_neg ha]
      refine List.nodup_cons.mpr ⟨?_, ih (a :: seen)⟩
      intro hmem
      rw [mem_dedupFirstAux] at hmem
      exact hmem.2 (List.mem_cons_self a seen)

theorem nodup_dedupFirst {α : Type} [DecidableEq α] (l : List α) :
    (dedupFirst l).Nodup := nodup_dedupFirstAux l []

theorem pyTitleAux_length : ∀ (b : Bool) (s : Str), (pyTitleAux b s).length = s.length := by
  intro b s
  induction s generalizing b with
  | nil => rfl
  | cons c cs ih => simp [pyTitleAux, ih]

theorem pyTitle_length (s : Str) : (pyTitle s).length = s.length :=
  pyTitleAux_length false s

theorem pyTitle_ne_nil {s : Str} (h : s ≠ []) : pyTitle s ≠ [] := by
  intro hcontra
  apply h
  have := pyTitle_length s
  rw [hcontra] at this
  exact List.length_eq_zero.mp this.symm

example : pyTitle "job hunting".toList = "Job Hunting".toList := by decide
example : pyTitle "Jobseekers".toList = "Jobseekers".toList := by decide
example : pySplitWs "  a  bb c ".toList = ["a".toList, "bb".toList, "c".toList] := by decide
example : (pySplitNl "a\n\nb".toList).length = 3 := by decide
example : (pySplitNl ([] : Str)).length = 1 := by decide
example : containsSub "abc".toList "xxabcy".toList = true := by decide
example : containsSub "abc".toList "xxaby".toList = false := by decide
example : dedupFirst ["b", "a", "b", "c"] = ["b", "a", "c"] := by decide
example : pyStrip "  hi\n".toList = "hi".toList := by decide

/-!
## Exemplar selector (`src/services/few_shot.py`, `FewShotPosts.get_filtered_posts`)

A corpus post is a loosely-typed JSON object; the selector reads only
`metadata.unified_tags` (default `[]`), `metadata.language` (default
`"English"`) and `metadata.line_count` (default `0`), with the whole
`metadata` object possibly absent.  `pid` stands for the rest of the document
payload, letting distinct documents be distinguished.
-/

/-- The metadata fields read by `get_filtered_posts`. -/
structure SelMeta where
  unified_tags : List Str
  language : Option Str
  line_count : Option Int
deriving DecidableEq

/-- A corpus document as seen by the selector. -/
structure SelPost where
  pid : Nat
  metadata : Option SelMeta
deriving DecidableEq

/-- `post.get('metadata', {})`: an absent metadata object yields all defaults. -/
def emptySelMeta : SelMeta := ⟨[], none, none⟩

def englishS : Str := "English".toList

def shortS : Str := "Short".toList

def mediumS : Str := "Medium".toList

def longS : Str := "Long".toList

/-- Lines 79–88 of `few_shot.py`: the length-category bucket check
(`if length_category == "Short" and 1 <= line_count <= 5: ... elif ...`). -/
def lengthMatchesB (length_category : Str) (line_count : Int) : Bool :=
  if length_category = shortS ∧ 1 ≤ line_count ∧ line_count ≤ 5 then true
  else if length_category = mediumS ∧ 6 ≤ line_count ∧ line_count ≤ 10 then true
  else if length_category = longS ∧ 11 ≤ line_count ∧ line_count ≤ 15 then true
  else false

/-- Line 74: `tag.lower() in [t.lower() for t in post_unified_tags]`. -/
def tagMatchesB (tag : Str) (p : SelPost) : Bool :=
  memB (pyLower tag) (((p.metadata.getD emptySelMeta).unified_tags).map pyLower)

/-- Line 77: `post_language.lower() == language.lower()` with
`post_language = meta.get('language', 'English')`. -/
def languageMatchesB (language : Str) (p : SelPost) : Bool :=
  decide (pyLower ((p.metadata.getD emptySelMeta).language.getD englishS) = pyLower language)

/-- Line 90: the three-way conjunction guarding `filtered.append(post)`. -/
def postMatchesB (length_category language tag : Str) (p : SelPost) : Bool :=
  tagMatchesB tag p && languageMatchesB language p
    && lengthMatchesB length_category ((p.metadata.getD emptySelMeta).line_count.getD 0)

/-- The selector loop (lines 67–95): append each match, breaking as soon as
`len(filtered) >= max_examples` holds after an append. -/
def getFilteredGo (length_category language tag : Str) (max_examples : Nat) :
    List SelPost → List SelPost → List SelPost
  | filtered, [] => filtered
  | filtered, p :: ps =>
    if postMatchesB length_category language tag p then
      (if max_examples ≤ filtered.length + 1 then filtered ++ [p]
       else getFilteredGo length_category language tag max_examples (filtered ++ [p]) ps)
    else getFilteredGo length_category language tag max_examples filtered ps

/-- `FewShotPosts.get_filtered_posts(length_category, language, tag,
max_examples=2)`, over an explicit corpus (`self.posts`). -/
def get_filtered_posts (posts : List SelPost) (length_category language tag : Str)
    (max_examples : Nat) : List SelPost :=
  getFilteredGo length_category language tag max_examples [] posts

theorem getFilteredGo_spec (length_category language tag : Str) (max_examples : Nat) :
    ∀ (ps filtered : List SelPost),
      (∀ p ∈ filtered, postMatchesB length_category language tag p = true) →
      (filtered.length < max_examples ∨ filtered = []) →
      (∀ p ∈ getFilteredGo length_category language tag max_examples filtered ps,
          postMatchesB length_category language tag p = true) ∧
      (getFilteredGo length_category language tag max_examples filtered ps).length
        ≤ max max_examples 1 := by
  intro ps
  induction ps with
  | nil =>
    intro filtered hmem hlen
    rw [getFilteredGo]
    refine ⟨hmem, ?_⟩
    rcases hlen with h | h
    · exact le_trans (le_of_lt h) (le_max_left _ _)
    · simp [h]
  | cons p ps ih =>
    intro filtered hmem hlen
    rw [getFilteredGo]
    by_cases hmatch : postMatchesB length_category language tag p = true
    · rw [if_pos hmatch]
      by_cases hfull : max_examples ≤ filtered.length + 1
      · rw [if_pos hfull]
        constructor
        · intro q hq
          rcases List.mem_append.mp hq with h | h
          · exact hmem q h
          · rw [List.mem_singleton.mp h]; exact hmatch
        · rw [List.length_append, List.length_singleton]
          rcases hlen with h | h
          · exact le_trans (Nat.succ_le_of_lt h) (le_max_left _ _)
          · simp [h]
      · rw [if_neg hfull]
        refine ih (filtered ++ [p]) ?_ ?_
        · intro q hq
          rcases List.mem_append.mp hq with h | h
          · exact hmem q h
          · rw [List.mem_singleton.mp h]; exact hmatch
        · left
          rw [List.length_append, List.length_singleton]
          omega
    · rw [if_neg hmatch]
      exact ih filtered hmem hlen

/-- C6: for the three bucket names the selector's length predicate is exactly
the inclusive range check (Short = [1,5], Medium = [6,10], Long = [11,15]); a
`line_count` of 0 or outside all three ranges matches no bucket, and an absent
`line_count` defaults to 0 and therefore matches no bucket. -/
theorem selector_bucket_iff :
    (∀ lc : Int, lengthMatchesB shortS lc = true ↔ (1 ≤ lc ∧ lc ≤ 5)) ∧
    (∀ lc : Int, lengthMatchesB mediumS lc = true ↔ (6 ≤ lc ∧ lc ≤ 10)) ∧
    (∀ lc : Int, lengthMatchesB longS lc = true ↔ (11 ≤ lc ∧ lc ≤ 15)) ∧
    (∀ (cat : Str) (lc : Int), (lc < 1 ∨ 15 < lc) → lengthMatchesB cat lc = false) ∧
    (∀ p : SelPost, (p.metadata.getD emptySelMeta).line_count = none →
      ∀ cat : Str, lengthMatchesB cat ((p.metadata.getD emptySelMeta).line_count.getD 0) = false) := by
  have hsm : ¬(shortS = mediumS) := by decide
  have hsl : ¬(shortS = longS) := by decide
  have hms : ¬(mediumS = shortS) := by decide
  have hml : ¬(mediumS = longS) := by decide
  have hls : ¬(longS = shortS) := by decide
  have hlm : ¬(longS = mediumS) := by decide
  have hno : ∀ (cat : Str) (lc : Int), (lc < 1 ∨ 15 < lc) → lengthMatchesB cat lc = false := by
    intro cat lc hout
    rw [lengthMatchesB]
    split_ifs with h1 h2 h3
    · exfalso; rcases h1 with ⟨-, ha, hb⟩; omega
    · exfalso; rcases h2 with ⟨-, ha, hb⟩; omega
    · exfalso; rcases h3 with ⟨-, ha, hb⟩; omega
    · rfl
  refine ⟨?_, ?_, ?_, hno, ?_⟩
  · intro lc
    simp only [lengthMatchesB, hsm, hsl, false_and, if_false, true_and]
    split_ifs with h <;> simp [h]
  · intro lc
    simp only [lengthMatchesB, hms, hml, false_and, if_false, true_and]
    split_ifs with h <;> simp [h]
  · intro lc
    simp only [lengthMatchesB, hls, hlm, false_and, if_false, true_and]
    split_ifs with h <;> simp [h]
  · intro p hnone cat
    rw [hnone]
    exact hno cat 0 (Or.inl (by norm_num))

/-- Witness for `selector_bucket_iff` at concrete inputs. -/
theorem selector_bucket_iff_witness :
    lengthMatchesB shortS 3 = true ∧ lengthMatchesB mediumS 0 = false :=
  ⟨(selector_bucket_iff.1 3).mpr (by norm_num),
   selector_bucket_iff.2.2.2.1 mediumS 0 (Or.inl (by norm_num))⟩

/-- A concrete corpus document matching request (Short, English, Startup). -/
def c1post : SelPost := ⟨0, some ⟨["Startup".toList], some englishS, some 3⟩⟩

/-- C1 counterexample: with `max_examples = 0` the selector still returns the
first matching document (the loop appends before testing
`len(filtered) >= max_examples`), so the returned length is 1, not ≤ 0. -/
theorem c1_counterexample :
    (get_filtered_posts [c1post] shortS englishS ("Startup".toList) 0).length = 1 ∧
    ¬((get_filtered_posts [c1post] shortS englishS ("Startup".toList) 0).length ≤ 0) := by
  decide

/-- C1 (amended): every document returned by the selector satisfies all three
predicates (tag membership, language match, bucket match), and the result
length is at most `max_examples` when `max_examples ≥ 1`; when
`max_examples = 0` one match may still be returned, so in general the length
is at most `max max_examples 1`. -/
theorem get_filtered_posts_conjunction (posts : List SelPost)
    (length_category language tag : Str) (max_examples : Nat) :
    (∀ p ∈ get_filtered_posts posts length_category language tag max_examples,
        tagMatchesB tag p = true ∧ languageMatchesB language p = true ∧
        lengthMatchesB length_category ((p.metadata.getD emptySelMeta).line_count.getD 0) = true) ∧
    (get_filtered_posts posts length_category language tag max_examples).length
      ≤ max max_examples 1 := by
  have h := getFilteredGo_spec length_category language tag max_examples posts []
    (by intro p hp; cases hp) (Or.inr rfl)
  refine ⟨?_, h.2⟩
  intro p hp
  have hm := h.1 p hp
  rw [postMatchesB] at hm
  simp only [Bool.and_eq_true] at hm
  exact ⟨hm.1.1, hm.1.2, hm.2⟩

/-- Witness for `get_filtered_posts_conjunction` at a concrete corpus. -/
theorem get_filtered_posts_conjunction_witness :
    (get_filtered_posts [c1post] shortS englishS ("Startup".toList) 2).length ≤ max 2 1 :=
  (get_filtered_posts_conjunction [c1post] shortS englishS ("Startup".toList) 2).2

/-!
## Post schema (`src/schemas/post.py`) and quality scoring/validation
(`src/utils/validators.py`)

`PostMetadata` keeps the fields the scorer and validators read.  The derived
accessors model the `Post` properties, including Python's falsy-`or`
semantics: `self.metadata.word_count or len(self.text.split())` recomputes
when the stored value is `None` **or** `0`.
-/

/-- The fields of `PostMetadata` consumed by scoring and validation. -/
structure PostMetadata where
  topic : Option Str
  tone : Option Str
  word_count : Option Int
  estimated_engagement : Option Str
  hashtags : List Str
  quality_score : Option ℚ
  line_count : Option Int
deriving DecidableEq

/-- A metadata object with every field defaulted (`PostMetadata()`). -/
def emptyPostMetadata : PostMetadata := ⟨none, none, none, none, [], none, none⟩

/-- A post (`Post` dataclass): id, text, metadata. -/
structure Post where
  pid : Str
  text : Str
  metadata : PostMetadata
deriving DecidableEq

/-- Python's `x or y` for an optional int: `None` and `0` are falsy. -/
def pyOrInt (o : Option Int) (d : Int) : Int :=
  match o with
  | some n => if n = 0 then d else n
  | none => d

/-- `Post.line_count`: `self.metadata.line_count or len(self.text.split('\n'))`. -/
def Post.lineCount (p : Post) : Int :=
  pyOrInt p.metadata.line_count ((pySplitNl p.text).length : Int)

/-- `Post.word_count`: `self.metadata.word_count or len(self.text.split())`. -/
def Post.wordCount (p : Post) : Int :=
  pyOrInt p.metadata.word_count ((pySplitWs p.text).length : Int)

/-- `Post.hashtag_count`: `len(self.metadata.hashtags)`. -/
def Post.hashtagCount (p : Post) : Nat := p.metadata.hashtags.length

/-- `Post.has_question`: `'?' in self.text`. -/
def Post.hasQuestion (p : Post) : Bool := containsSub "?".toList p.text

/-- `Post.has_exclamation`: `'!' in self.text`. -/
def Post.hasExclamation (p : Post) : Bool := containsSub "!".toList p.text

/-- `Post.length_category` (line 99–106 of `post.py`). -/
def Post.lengthCategory (p : Post) : Str :=
  if p.lineCount < 5 then shortS
  else if 5 ≤ p.lineCount ∧ p.lineCount ≤ 10 then mediumS
  else longS

def connectorWords : List Str :=
  ["because".toList, "however".toList, "therefore".toList, "meanwhile".toList]

def insightWords : List Str :=
  ["think".toList, "believe".toList, "suggest".toList, "recommend".toList]

def experienceWords : List Str :=
  ["experience".toList, "learned".toList, "discovered".toList, "found".toList]

def actionableWords : List Str :=
  ["tips".toList, "advice".toList, "strategies".toList, "methods".toList]

def professionalWords : List Str :=
  ["professional".toList, "industry".toList, "business".toList,
   "career".toList, "leadership".toList, "strategy".toList]

/-- `any(word in post.text.lower() for word in ws)`. -/
def anyWordIn (ws : List Str) (t : Str) : Bool := ws.any (fun w => containsSub w t)

/-- `calculate_post_quality_score` (lines 169–222 of `validators.py`): the
sequential accumulation of the additive signals, capped at 10. -/
def calculate_post_quality_score (p : Post) : ℚ :=
  min
    ((if 50 ≤ p.wordCount ∧ p.wordCount ≤ 300 then (2 : ℚ)
      else if (30 ≤ p.wordCount ∧ p.wordCount < 50) ∨ (300 < p.wordCount ∧ p.wordCount ≤ 500)
        then (1 : ℚ) else 0)
      + (if p.hasQuestion then (1 : ℚ) else 0)
      + (if p.hasExclamation then (1 / 2 : ℚ) else 0)
      + (if 0 < p.hashtagCount then (1 / 2 : ℚ) else 0)
      + (if 1 ≤ p.hashtagCount ∧ p.hashtagCount ≤ 5 then (1 : ℚ)
         else if 5 < p.hashtagCount then (1 / 2 : ℚ) else 0)
      + (if 3 ≤ p.lineCount then (1 : ℚ) else 0)
      + (if containsSub "\n\n".toList p.text then (1 : ℚ) else 0)
      + (if anyWordIn connectorWords (pyLower p.text) then (1 / 2 : ℚ) else 0)
      + (if anyWordIn insightWords (pyLower p.text) then (1 / 2 : ℚ) else 0)
      + (if anyWordIn experienceWords (pyLower p.text) then (1 / 2 : ℚ) else 0)
      + (if anyWordIn actionableWords (pyLower p.text) then (1 / 2 : ℚ) else 0)
      + (if anyWordIn professionalWords (pyLower p.text) then (1 : ℚ) else 0))
    10

/-- Modelled from the spec: the raw additive signal table of §4.4, one addend
per table row, in table order (the two length rows and the two hashtag-count
rows are separate, mutually exclusive rows). -/
def specRawScore (p : Post) : ℚ :=
  (if 50 ≤ p.wordCount ∧ p.wordCount ≤ 300 then (2 : ℚ) else 0)
    + (if (30 ≤ p.wordCount ∧ p.wordCount < 50) ∨ (300 < p.wordCount ∧ p.wordCount ≤ 500)
       then (1 : ℚ) else 0)
    + (if p.hasQuestion then (1 : ℚ) else 0)
    + (if p.hasExclamation then (1 / 2 : ℚ) else 0)
    + (if 0 < p.hashtagCount then (1 / 2 : ℚ) else 0)
    + (if 1 ≤ p.hashtagCount ∧ p.hashtagCount ≤ 5 then (1 : ℚ) else 0)
    + (if 5 < p.hashtagCount then (1 / 2 : ℚ) else 0)
    + (if 3 ≤ p.lineCount then (1 : ℚ) else 0)
    + (if containsSub "\n\n".toList p.text then (1 : ℚ) else 0)
    + (if anyWordIn connectorWords (pyLower p.text) then (1 / 2 : ℚ) else 0)
    + (if anyWordIn insightWords (pyLower p.text) then (1 / 2 : ℚ) else 0)
    + (if anyWordIn experienceWords (pyLower p.text) then (1 / 2 : ℚ) else 0)
    + (if anyWordIn actionableWords (pyLower p.text) then (1 / 2 : ℚ) else 0)
    + (if anyWordIn professionalWords (pyLower p.text) then (1 : ℚ) else 0)

theorem ite_disjoint_split (A B : Prop) [Decidable A] [Decidable B] (a b : ℚ)
    (h : ¬(A ∧ B)) :
    (if A then a else if B then b else 0) = (if A then a else 0) + (if B then b else 0) := by
  split_ifs with h1 h2
  · exact absurd ⟨h1, h2⟩ h
  · ring
  · ring
  · ring

theorem ite_nonneg_q (A : Prop) [Decidable A] (a b : ℚ) (ha : 0 ≤ a) (hb : 0 ≤ b) :
    0 ≤ if A then a else b := by
  split_ifs <;> assumption

/-- Scenario 3's text: 60 one-letter words over 4 lines, last word `a?`, no
blank line, no keyword occurrences, no exclamation mark. -/
def scLine : Str := List.intercalate [' '] (List.replicate 15 ['a'])

def scLineLast : Str := List.intercalate [' '] (List.replicate 14 ['a'] ++ [['a', '?']])

def scText : Str := List.intercalate ['\n'] [scLine, scLine, scLine, scLineLast]

/-- Scenario 3's document: the text above plus exactly one metadata hashtag. -/
def scenarioPost : Post :=
  ⟨"p1".toList, scText, ⟨none, none, none, none, ["#AI".toList], none, none⟩⟩

example : ((pySplitWs scText).length : Int) = 60 := by decide
example : ((pySplitNl scText).length : Int) = 4 := by decide

/-- C2: the quality score equals the spec's additive signal table capped at
10, hence always lies in [0, 10]; on Scenario 3's document (60 words, a
question mark, one hashtag, 4 lines, no blank-line break, no keyword hits)
the score is 5.5. -/
theorem score_matches_spec_table :
    (∀ p : Post,
        calculate_post_quality_score p = min (specRawScore p) 10 ∧
        0 ≤ calculate_post_quality_score p ∧ calculate_post_quality_score p ≤ 10) ∧
    calculate_post_quality_score scenarioPost = 11 / 2 := by
  constructor
  · intro p
    have hsplit1 :
        (if 50 ≤ p.wordCount ∧ p.wordCount ≤ 300 then (2 : ℚ)
         else if (30 ≤ p.wordCount ∧ p.wordCount < 50) ∨ (300 < p.wordCount ∧ p.wordCount ≤ 500)
           then (1 : ℚ) else 0)
          = (if 50 ≤ p.wordCount ∧ p.wordCount ≤ 300 then (2 : ℚ) else 0)
            + (if (30 ≤ p.wordCount ∧ p.wordCount < 50) ∨ (300 < p.wordCount ∧ p.wordCount ≤ 500)
               then (1 : ℚ) else 0) := by
      apply ite_disjoint_split
      rintro ⟨⟨h1, h2⟩, ⟨h3, h4⟩ | ⟨h3, h4⟩⟩ <;> omega
    have hsplit2 :
        (if 1 ≤ p.hashtagCount ∧ p.hashtagCount ≤ 5 then (1 : ℚ)
         else if 5 < p.hashtagCount then (1 / 2 : ℚ) else 0)
          = (if 1 ≤ p.hashtagCount ∧ p.hashtagCount ≤ 5 then (1 : ℚ) else 0)
            + (if 5 < p.hashtagCount then (1 / 2 : ℚ) else 0) := by
      apply ite_disjoint_split
      rintro ⟨⟨h1, h2⟩, h3⟩
      omega
    have hraw : 0 ≤ specRawScore p := by
      rw [specRawScore]
      repeat' first
        | apply add_nonneg
        | (apply ite_nonneg_q <;> norm_num)
    have heq : calculate_post_quality_score p = min (specRawScore p) 10 := by
      rw [calculate_post_quality_score, specRawScore, hsplit1, hsplit2]
      congr 1
      ring
    refine ⟨heq, ?_, ?_⟩
    · rw [heq]
      exact le_min hraw (by norm_num)
    · rw [heq]
      exact min_le_right _ _
  · have h1 : scenarioPost.wordCount = 60 := by decide
    have h2 : scenarioPost.lineCount = 4 := by decide
    have h3 : scenarioPost.hasQuestion = true := by decide
    have h4 : scenarioPost.hasExclamation = false := by decide
    have h5 : scenarioPost.hashtagCount = 1 := by decide
    have h6 : containsSub "\n\n".toList scenarioPost.text = false := by decide
    have h7 : anyWordIn connectorWords (pyLower scenarioPost.text) = false := by decide
    have h8 : anyWordIn insightWords (pyLower scenarioPost.text) = false := by decide
    have h9 : anyWordIn experienceWords (pyLower scenarioPost.text) = false := by decide
    have h10 : anyWordIn actionableWords (pyLower scenarioPost.text) = false := by decide
    have h11 : anyWordIn professionalWords (pyLower scenarioPost.text) = false := by decide
    simp only [calculate_post_quality_score, h1, h2, h3, h4, h5, h6, h7, h8, h9, h10, h11]
    norm_num [min_def]

/-- Two posts with identical text but different metadata hashtag lists. -/
def c8postA : Post := ⟨"a".toList, "hi there".toList, emptyPostMetadata⟩

def c8postB : Post :=
  ⟨"b".toList, "hi there".toList, ⟨none, none, none, none, ["#AI".toList], none, none⟩⟩

/-- A post equal to `c8postA` on every field the scorer reads, but with a
different topic. -/
def c8postC : Post :=
  ⟨"c".toList, "hi there".toList, ⟨some "X".toList, none, none, none, [], none, none⟩⟩

/-- C8 counterexample: equal text does NOT imply equal score — the scorer also
reads `metadata.hashtags` (and the `word_count`/`line_count` overrides), so
two documents with the same text can score differently. -/
theorem c8_counterexample :
    c8postA.text = c8postB.text ∧
    calculate_post_quality_score c8postA ≠ calculate_post_quality_score c8postB := by
  have hA : calculate_post_quality_score c8postA = 0 := by
    have h1 : c8postA.wordCount = 2 := by decide
    have h2 : c8postA.lineCount = 1 := by decide
    have h3 : c8postA.hasQuestion = false := by decide
    have h4 : c8postA.hasExclamation = false := by decide
    have h5 : c8postA.hashtagCount = 0 := by decide
    have h6 : containsSub "\n\n".toList c8postA.text = false := by decide
    have h7 : anyWordIn connectorWords (pyLower c8postA.text) = false := by decide
    have h8 : anyWordIn insightWords (pyLower c8postA.text) = false := by decide
    have h9 : anyWordIn experienceWords (pyLower c8postA.text) = false := by decide
    have h10 : anyWordIn actionableWords (pyLower c8postA.text) = false := by decide
    have h11 : anyWordIn professionalWords (pyLower c8postA.text) = false := by decide
    simp only [calculate_post_quality_score, h1, h2, h3, h4, h5, h6, h7, h8, h9, h10, h11]
    norm_num [min_def]
  have hB : calculate_post_quality_score c8postB = 3 / 2 := by
    have h1 : c8postB.wordCount = 2 := by decide
    have h2 : c8postB.lineCount = 1 := by decide
    have h3 : c8postB.hasQuestion = false := by decide
    have h4 : c8postB.hasExclamation = false := by decide
    have h5 : c8postB.hashtagCount = 1 := by decide
    have h6 : containsSub "\n\n".toList c8postB.text = false := by decide
    have h7 : anyWordIn connectorWords (pyLower c8postB.text) = false := by decide
    have h8 : anyWordIn insightWords (pyLower c8postB.text) = false := by decide
    have h9 : anyWordIn experienceWords (pyLower c8postB.text) = false := by decide
    have h10 : anyWordIn actionableWords (pyLower c8postB.text) = false := by decide
    have h11 : anyWordIn professionalWords (pyLower c8postB.text) = false := by decide
    simp only [calculate_post_quality_score, h1, h2, h3, h4, h5, h6, h7, h8, h9, h10, h11]
    norm_num [min_def]
  refine ⟨rfl, ?_⟩
  rw [hA, hB]
  norm_num

/-- C8 (amended): scoring is a pure total function of the fields it reads —
two documents agreeing on `text`, `metadata.hashtags`, `metadata.word_count`
and `metadata.line_count` score identically (scoring the same document twice
is the special case `p = q`); equality of `text` alone is not sufficient. -/
theorem score_depends_only_on_read_fields (p q : Post)
    (htext : p.text = q.text) (hht : p.metadata.hashtags = q.metadata.hashtags)
    (hwc : p.metadata.word_count = q.metadata.word_count)
    (hlc : p.metadata.line_count = q.metadata.line_count) :
    calculate_post_quality_score p = calculate_post_quality_score q := by
  simp only [calculate_post_quality_score, Post.wordCount, Post.lineCount,
    Post.hashtagCount, Post.hasQuestion, Post.hasExclamation, htext, hht, hwc, hlc]

/-- Witness for `score_depends_only_on_read_fields`: two posts differing only
in topic score identically. -/
theorem score_depends_only_on_read_fields_witness :
    calculate_post_quality_score c8postA = calculate_post_quality_score c8postC :=
  score_depends_only_on_read_fields c8postA c8postC rfl rfl rfl rfl

/-!
## Structural validation (`validators.py`, lines 16–166)

`ValidationError` is modelled as the `Except.error` branch carrying the
message; `validate_post_quality` is total (the Python `except ValidationError`
handler turns the first raised error into the report).  Python truthiness is
modelled explicitly: an empty string and the float `0` are falsy.
-/

def allowedTones : List Str :=
  ["professional".toList, "casual".toList, "formal".toList, "friendly".toList,
   "authoritative".toList, "conversational".toList, "inspirational".toList,
   "educational".toList, "analytical".toList]

def allowedEngagements : List Str :=
  ["low".toList, "medium".toList, "high".toList, "very_high".toList]

/-- `validate_post_text` (lines 16–43). -/
def validate_post_text (t : Str) : Except Str Unit :=
  if t = [] ∨ pyStrip t = [] then .error "Post text cannot be empty".toList
  else if (pyStrip t).length < 10 then
    .error "Post text must be at least 10 characters long".toList
  else if 3000 < t.length then .error "Post text cannot exceed 3000 characters".toList
  else if 10 < t.count '#' then .error "Post cannot have more than 10 hashtags".toList
  else .ok ()

/-- A character allowed after `#` by the pattern `[a-zA-Z0-9_]`. -/
def hashtagOkChar (c : Char) : Bool :=
  ('a' ≤ c ∧ c ≤ 'z') ∨ ('A' ≤ c ∧ c ≤ 'Z') ∨ ('0' ≤ c ∧ c ≤ '9') ∨ c = '_'

/-- Python `re.match(r'^#[a-zA-Z0-9_]+$', h)` as a boolean: `$` also matches
just before one trailing newline, so a single final `'\n'` is tolerated. -/
def pyRegexHashtag (h : Str) : Bool :=
  match (if h.getLast? = some '\n' then h.dropLast else h) with
  | '#' :: rest => !rest.isEmpty && rest.all hashtagOkChar
  | _ => false

/-- The per-element checks of `validate_hashtags` (lines 59–71). -/
def validateOneHashtag (h : Str) : Except Str Unit :=
  if ¬isPrefixOfCL "#".toList h then
    .error ("Hashtag '".toList ++ h ++ "' must start with #".toList)
  else if h.length < 2 then .error ("Hashtag '".toList ++ h ++ "' is too short".toList)
  else if 50 < h.length then .error ("Hashtag '".toList ++ h ++ "' is too long".toList)
  else if ¬pyRegexHashtag h then
    .error ("Hashtag '".toList ++ h ++ "' contains invalid characters".toList)
  else .ok ()

/-- `validate_hashtags` (lines 46–73): first failing hashtag raises. -/
def validate_hashtags : List Str → Except Str Unit
  | [] => .ok ()
  | h :: hs =>
    match validateOneHashtag h with
    | .error e => .error e
    | .ok _ => validate_hashtags hs

/-- Python truthiness of an optional string: `None` and `""` are falsy. -/
def pyTruthyStr (o : Option Str) : Bool :=
  match o with
  | some s => !s.isEmpty
  | none => false

/-- Python truthiness of an optional float: `None` and `0.0` are falsy. -/
def pyTruthyQ (o : Option ℚ) : Bool :=
  match o with
  | some q => decide (q ≠ 0)
  | none => false

/-- `validate_post_metadata` (lines 76–103).  Note every guard tests Python
truthiness first, so empty strings and a `0.0` score are skipped. -/
def validate_post_metadata (m : PostMetadata) : Except Str Unit :=
  if pyTruthyStr m.topic && decide (100 < (m.topic.getD []).length) then
    .error "Topic cannot exceed 100 characters".toList
  else if pyTruthyStr m.tone && !memB (m.tone.getD []) allowedTones then
    .error ("Invalid tone: ".toList ++ m.tone.getD [])
  else if pyTruthyStr m.estimated_engagement
      && !memB (m.estimated_engagement.getD []) allowedEngagements then
    .error ("Invalid engagement level: ".toList ++ m.estimated_engagement.getD [])
  else if pyTruthyQ m.quality_score
      && !decide (0 ≤ m.quality_score.getD 0 ∧ m.quality_score.getD 0 ≤ 10) then
    .error "Quality score must be between 0 and 10".toList
  else .ok ()

/-- The `metrics` sub-dict filled by `validate_post_quality` on success. -/
structure PostMetrics where
  word_count : Int
  line_count : Int
  hashtag_count : Nat
  has_question : Bool
  has_exclamation : Bool
  length_category : Str
deriving DecidableEq

/-- The dict returned by `validate_post_quality`. -/
structure QualityReport where
  is_valid : Bool
  errors : List Str
  warnings : List Str
  score : ℚ
  metrics : Option PostMetrics
deriving DecidableEq

def metricsOf (p : Post) : PostMetrics :=
  ⟨p.wordCount, p.lineCount, p.hashtagCount, p.hasQuestion, p.hasExclamation, p.lengthCategory⟩

/-- The advisory warnings appended on the success path (lines 149–160). -/
def warningsOf (p : Post) : List Str :=
  (if p.wordCount < 50 then
    ["Post is quite short - consider adding more content".toList] else [])
  ++ (if p.hashtagCount = 0 then
    ["No hashtags found - consider adding relevant hashtags".toList] else [])
  ++ (if !p.hasQuestion && !p.hasExclamation then
    ["Post lacks engagement elements - consider adding questions or exclamations".toList]
     else [])
  ++ (if 500 < p.wordCount then
    ["Post is quite long - consider breaking it into multiple posts".toList] else [])

/-- The sequence of validations inside the `try` block of
`validate_post_quality` (lines 124–133); the first `ValidationError` aborts. -/
def validationChain (p : Post) : Except Str Unit :=
  match validate_post_text p.text with
  | .error e => .error e
  | .ok _ =>
    match (if !p.metadata.hashtags.isEmpty then validate_hashtags p.metadata.hashtags
           else .ok ()) with
    | .error e => .error e
    | .ok _ => validate_post_metadata p.metadata

/-- `validate_post_quality` (lines 106–166): a caught `ValidationError` yields
`is_valid=False` with the single collected error, the score left at 0. -/
def validate_post_quality (p : Post) : QualityReport :=
  match validationChain p with
  | .error e => ⟨false, [e], [], 0, none⟩
  | .ok _ =>
    ⟨true, [], warningsOf p, calculate_post_quality_score p, some (metricsOf p)⟩

theorem memB_iff (x : Str) (l : List Str) : memB x l = true ↔ x ∈ l := by
  simp [memB, List.any_eq_true]

theorem pyStrip_nil : pyStrip ([] : Str) = [] := rfl

theorem pyTruthyStr_iff (o : Option Str) :
    pyTruthyStr o = true ↔ ∃ s, o = some s ∧ s ≠ [] := by
  cases o <;> simp [pyTruthyStr]

theorem validate_post_text_ok (t : Str) :
    validate_post_text t = Except.ok () ↔
      (pyStrip t ≠ [] ∧ 10 ≤ (pyStrip t).length ∧ t.length ≤ 3000 ∧ t.count '#' ≤ 10) := by
  rw [validate_post_text]
  split_ifs with h1 h2 h3 h4
  · refine iff_of_false (by simp) ?_
    rintro ⟨hne, -, -, -⟩
    rcases h1 with rfl | h
    · exact hne pyStrip_nil
    · exact hne h
  · refine iff_of_false (by simp) ?_
    rintro ⟨-, hlen, -, -⟩
    omega
  · refine iff_of_false (by simp) ?_
    rintro ⟨-, -, hlen, -⟩
    omega
  · refine iff_of_false (by simp) ?_
    rintro ⟨-, -, -, hc⟩
    omega
  · refine iff_of_true rfl ?_
    push_neg at h1
    exact ⟨h1.2, by omega, by omega, by omega⟩

theorem validateOneHashtag_ok (h : Str) :
    validateOneHashtag h = Except.ok () ↔
      (isPrefixOfCL "#".toList h = true ∧ 2 ≤ h.length ∧ h.length ≤ 50 ∧
        pyRegexHashtag h = true) := by
  rw [validateOneHashtag]
  by_cases hp : isPrefixOfCL "#".toList h = true
  · rw [if_neg (not_not.mpr hp)]
    by_cases hl2 : h.length < 2
    · rw [if_pos hl2]
      exact iff_of_false (by simp) (by rintro ⟨-, ha, -, -⟩; omega)
    · rw [if_neg hl2]
      by_cases hl50 : 50 < h.length
      · rw [if_pos hl50]
        exact iff_of_false (by simp) (by rintro ⟨-, -, ha, -⟩; omega)
      · rw [if_neg hl50]
        by_cases hr : pyRegexHashtag h = true
        · rw [if_neg (not_not.mpr hr)]
          exact iff_of_true rfl ⟨hp, by omega, by omega, hr⟩
        · rw [if_pos hr]
          exact iff_of_false (by simp) (by rintro ⟨-, -, -, ha⟩; exact hr ha)
  · rw [if_pos hp]
    exact iff_of_false (by simp) (by rintro ⟨ha, -⟩; exact hp ha)

theorem validate_hashtags_ok :
    ∀ hs : List Str, validate_hashtags hs = Except.ok () ↔
      ∀ h ∈ hs, validateOneHashtag h = Except.ok () := by
  intro hs
  induction hs with
  | nil => simp [validate_hashtags]
  | cons h hs ih =>
    rw [validate_hashtags]
    cases hh : validateOneHashtag h with
    | error e =>
      refine iff_of_false (by simp) ?_
      intro hall
      have hcontra := hall h (List.mem_cons_self h hs)
      rw [hh] at hcontra
      exact absurd hcontra (by simp)
    | ok u =>
      cases u
      constructor
      · intro hok
        rw [List.forall_mem_cons]
        exact ⟨hh, ih.mp hok⟩
      · intro hall
        exact ih.mpr (List.forall_mem_cons.mp hall).2

theorem validate_post_metadata_ok (m : PostMetadata) :
    validate_post_metadata m = Except.ok () ↔
      ((∀ t, m.topic = some t → t.length ≤ 100) ∧
       (∀ t, m.tone = some t → t ≠ [] → t ∈ allowedTones) ∧
       (∀ t, m.estimated_engagement = some t → t ≠ [] → t ∈ allowedEngagements) ∧
       (∀ q, m.quality_score = some q → 0 ≤ q ∧ q ≤ 10)) := by
  rw [validate_post_metadata]
  split_ifs with h1 h2 h3 h4
  · refine iff_of_false (by simp) ?_
    rintro ⟨htop, -, -, -⟩
    rw [Bool.and_eq_true, pyTruthyStr_iff, decide_eq_true_eq] at h1
    obtain ⟨⟨t, ht, -⟩, hlen⟩ := h1
    rw [ht] at hlen
    exact absurd hlen (by simpa using htop t ht)
  · refine iff_of_false (by simp) ?_
    rintro ⟨-, htone, -, -⟩
    rw [Bool.and_eq_true, pyTruthyStr_iff] at h2
    obtain ⟨⟨t, ht, hne⟩, hmem⟩ := h2
    rw [ht] at hmem
    simp only [Option.getD_some, Bool.not_eq_true'] at hmem
    have := htone t ht hne
    rw [← memB_iff] at this
    rw [this] at hmem
    cases hmem
  · refine iff_of_false (by simp) ?_
    rintro ⟨-, -, heng, -⟩
    rw [Bool.and_eq_true, pyTruthyStr_iff] at h3
    obtain ⟨⟨t, ht, hne⟩, hmem⟩ := h3
    rw [ht] at hmem
    simp only [Option.getD_some, Bool.not_eq_true'] at hmem
    have := heng t ht hne
    rw [← memB_iff] at this
    rw [this] at hmem
    cases hmem
  · refine iff_of_false (by simp) ?_
    rintro ⟨-, -, -, hqs⟩
    rw [Bool.and_eq_true] at h4
    obtain ⟨htr, hrange⟩ := h4
    cases hq : m.quality_score with
    | none => rw [hq] at htr; exact absurd htr (by simp [pyTruthyQ])
    | some q =>
      rw [hq] at hrange
      simp only [Option.getD_some, Bool.not_eq_true', decide_eq_false_iff_not] at hrange
      exact hrange (hqs q hq)
  · refine iff_of_true rfl ⟨?_, ?_, ?_, ?_⟩
    · intro t ht
      by_contra hlen
      apply h1
      rw [Bool.and_eq_true, pyTruthyStr_iff, decide_eq_true_eq, ht]
      have hne : t ≠ [] := by
        intro hcontra
        rw [hcontra] at hlen
        simp at hlen
      exact ⟨⟨t, rfl, hne⟩, by simpa using Nat.lt_of_not_le (by simpa using hlen)⟩
    · intro t ht hne
      by_contra hmem
      apply h2
      rw [Bool.and_eq_true, pyTruthyStr_iff, ht]
      refine ⟨⟨t, rfl, hne⟩, ?_⟩
      simp only [Option.getD_some, Bool.not_eq_true']
      rw [← Bool.not_eq_true, memB_iff]
      simpa using hmem
    · intro t ht hne
      by_contra hmem
      apply h3
      rw [Bool.and_eq_true, pyTruthyStr_iff, ht]
      refine ⟨⟨t, rfl, hne⟩, ?_⟩
      simp only [Option.getD_some, Bool.not_eq_true']
      rw [← Bool.not_eq_true, memB_iff]
      simpa using hmem
    · intro q hq
      by_contra hrange
      apply h4
      rw [Bool.and_eq_true, hq]
      constructor
      · simp only [pyTruthyQ, decide_eq_true_eq]
        rintro rfl
        exact hrange ⟨le_refl 0, by norm_num⟩
      · simp only [Option.getD_some, Bool.not_eq_true', decide_eq_false_iff_not]
        exact hrange

theorem validationChain_ok_iff (p : Post) :
    validationChain p = Except.ok () ↔
      (validate_post_text p.text = Except.ok () ∧
       (∀ h ∈ p.metadata.hashtags, validateOneHashtag h = Except.ok ()) ∧
       validate_post_metadata p.metadata = Except.ok ()) := by
  rw [validationChain]
  cases ht : validate_post_text p.text with
  | error e =>
    refine iff_of_false (by simp) ?_
    rintro ⟨h1, -, -⟩
    exact absurd h1 (by simp)
  | ok u =>
    cases u
    by_cases hemp : p.metadata.hashtags.isEmpty
    · rw [if_neg (by simp [hemp])]
      have hnil : p.metadata.hashtags = [] := by
        simpa using hemp
      simp [hnil]
    · rw [if_pos (by simp [hemp])]
      cases hh : validate_hashtags p.metadata.hashtags with
      | error e =>
        refine iff_of_false (by simp) ?_
        rintro ⟨-, h2, -⟩
        rw [← validate_hashtags_ok, hh] at h2
        exact absurd h2 (by simp)
      | ok u =>
        cases u
        rw [← validate_hashtags_ok, hh]
        simp

/-- C9: a `ValidationError` raised by any structural validation never
propagates out of `validate_post_quality`: the message becomes the single
entry of `errors`, `is_valid` is `False`, and the score computation is
short-circuited (the reported score stays 0). -/
theorem assess_captures_validation_error (p : Post) (e : Str)
    (h : validationChain p = Except.error e) :
    (validate_post_quality p).is_valid = false ∧
    (validate_post_quality p).errors = [e] ∧
    (validate_post_quality p).score = 0 := by
  simp [validate_post_quality, h]

/-- A post whose stripped text has fewer than 10 characters. -/
def invalidPost : Post := ⟨"x".toList, "short".toList, emptyPostMetadata⟩

/-- Witness for `assess_captures_validation_error` on a concrete post. -/
theorem assess_captures_validation_error_witness :
    (validate_post_quality invalidPost).is_valid = false ∧
    (validate_post_quality invalidPost).errors
      = ["Post text must be at least 10 characters long".toList] ∧
    (validate_post_quality invalidPost).score = 0 :=
  assess_captures_validation_error invalidPost
    "Post text must be at least 10 characters long".toList (by rfl)

theorem is_valid_true_iff_chain_ok (p : Post) :
    (validate_post_quality p).is_valid = true ↔ validationChain p = Except.ok () := by
  cases h : validationChain p with
  | error e => simp [validate_post_quality, h]
  | ok u => cases u; simp [validate_post_quality, h]

/-- The hashtag pattern exactly as the claim words it: `'#'` followed by only
letters, digits, or underscores (no trailing-newline tolerance). -/
def strictHashtagPattern (h : Str) : Bool :=
  match h with
  | '#' :: rest => !rest.isEmpty && rest.all hashtagOkChar
  | _ => false

/-- Modelled from the claim: C10's validity condition, with `(if present)`
read as `≠ None` — an empty tone/engagement string counts as present and must
be drawn from the allowed sets, and hashtags must match the strict pattern. -/
def c10SpecValid (p : Post) : Bool :=
  !(pyStrip p.text).isEmpty
    && decide (10 ≤ (pyStrip p.text).length)
    && decide (p.text.length ≤ 3000)
    && decide (p.text.count '#' ≤ 10)
    && p.metadata.hashtags.all (fun h =>
        isPrefixOfCL "#".toList h && decide (2 ≤ h.length) && decide (h.length ≤ 50)
          && strictHashtagPattern h)
    && (match p.metadata.topic with
        | some t => decide (t.length ≤ 100)
        | none => true)
    && (match p.metadata.tone with
        | some t => memB t allowedTones
        | none => true)
    && (match p.metadata.estimated_engagement with
        | some t => memB t allowedEngagements
        | none => true)
    && (match p.metadata.quality_score with
        | some q => decide (0 ≤ q ∧ q ≤ 10)
        | none => true)

/-- A post that is valid for the code but not for C10's predicate: its tone is
the empty string, which Python's truthiness test skips (`if metadata.tone and
...`), while the claim requires any present tone to be in the allowed set. -/
def c10cex : Post :=
  ⟨"c".toList, "hello world ok".toList, ⟨none, some [], none, none, [], none, none⟩⟩

/-- C10 counterexample: `is_valid` and the claim's predicate disagree on
`c10cex` — the code accepts an empty-string tone, the claim rejects it. -/
theorem c10_counterexample :
    ¬(((validate_post_quality c10cex).is_valid = true) ↔ (c10SpecValid c10cex = true)) := by
  decide

/-- C10 (amended): `is_valid = true` iff the text survives stripping with at
least 10 characters and at most 3000 raw characters, at most 10 `'#'`
characters occur, every metadata hashtag starts with `'#'`, has length in
[2, 50] and matches Python's `re.match(r'^#[a-zA-Z0-9_]+$', ...)` (which
tolerates one trailing newline), the topic (if present) has at most 100
characters, the tone and estimated_engagement (if present AND non-empty — an
empty string is falsy and skipped) lie in their allowed sets, and any present
quality_score lies in [0, 10]. -/
theorem is_valid_iff (p : Post) :
    (validate_post_quality p).is_valid = true ↔
      (pyStrip p.text ≠ [] ∧ 10 ≤ (pyStrip p.text).length ∧ p.text.length ≤ 3000 ∧
       p.text.count '#' ≤ 10 ∧
       (∀ h ∈ p.metadata.hashtags, isPrefixOfCL "#".toList h = true ∧ 2 ≤ h.length ∧
          h.length ≤ 50 ∧ pyRegexHashtag h = true) ∧
       (∀ t, p.metadata.topic = some t → t.length ≤ 100) ∧
       (∀ t, p.metadata.tone = some t → t ≠ [] → t ∈ allowedTones) ∧
       (∀ t, p.metadata.estimated_engagement = some t → t ≠ [] → t ∈ allowedEngagements) ∧
       (∀ q, p.metadata.quality_score = some q → 0 ≤ q ∧ q ≤ 10)) := by
  rw [is_valid_true_iff_chain_ok, validationChain_ok_iff, validate_post_text_ok,
    validate_post_metadata_ok]
  constructor
  · rintro ⟨⟨t1, t2, t3, t4⟩, hhs, m1, m2, m3, m4⟩
    refine ⟨t1, t2, t3, t4, ?_, m1, m2, m3, m4⟩
    intro h hmem
    exact (validateOneHashtag_ok h).mp (hhs h hmem)
  · rintro ⟨t1, t2, t3, t4, hhs, m1, m2, m3, m4⟩
    refine ⟨⟨t1, t2, t3, t4⟩, ?_, m1, m2, m3, m4⟩
    intro h hmem
    exact (validateOneHashtag_ok h).mpr (hhs h hmem)

/-!
## Canonical tag resolver (`preprocessing_service.py`, lines 15–22 and 166–234)

`get_unified_tags` builds a prompt, invokes the LLM collaborator, then
attempts a strict JSON parse and, on `OutputParserException`, a
brace-delimited substring extraction re-parsed with `json.loads`; any
failure anywhere (transport error included) falls back to the identity
title-cased mapping.  The collaborator and the two library JSON parsers are
external capabilities, so they enter the model as parameters: `response` is
the collaborator's reply (`none` = the call raised), `strictParse` models
`JsonOutputParser.parse` (`none` = `OutputParserException`), and `jsonLoads`
models `json.loads` (`none` = raised).
-/

/-- `extract_json_from_text` (lines 15–22): the regex `\{[\s\S]*\}` matches
from the first `'{'` to the last `'}'` after it; if there is no match the
text is returned unchanged. -/
def extract_json_from_text (t : Str) : Str :=
  let s := t.dropWhile (fun c => decide (c ≠ '{'))
  let r := (s.reverse.dropWhile (fun c => decide (c ≠ '}'))).reverse
  if s = [] ∨ r = [] then t else r

example : extract_json_from_text "ab\x7bx\x7d\x7by\x7dcd".toList = "\x7bx\x7d\x7by\x7d".toList := by decide
example : extract_json_from_text "no json here".toList = "no json here".toList := by decide
example : extract_json_from_text "\x7d\x7b".toList = "\x7d\x7b".toList := by decide

/-- `get_unified_tags` (lines 166–234) with the external collaborator and
parsers as parameters. -/
def get_unified_tags (strictParse jsonLoads : Str → Option TagMap)
    (tags_list : List Str) (response : Option Str) : TagMap :=
  match response with
  | none => tags_list.map (fun tag => (tag, pyTitle tag))
  | some content =>
    match strictParse content with
    | some res => res
    | none =>
      match jsonLoads (extract_json_from_text content) with
      | some res => res
      | none => tags_list.map (fun tag => (tag, pyTitle tag))

theorem gutFallbackEq (strictParse jsonLoads : Str → Option TagMap)
    (tags_list : List Str) (response : Option Str)
    (hfail : response = none ∨
      ∃ c, response = some c ∧ strictParse c = none ∧
        jsonLoads (extract_json_from_text c) = none) :
    get_unified_tags strictParse jsonLoads tags_list response
      = tags_list.map (fun tag => (tag, pyTitle tag)) := by
  rcases hfail with rfl | ⟨c, rfl, hs, hj⟩
  · rfl
  · rw [get_unified_tags, hs, hj]

/-- C4: whenever the collaborator call fails (`response = none`) or its
response defeats both the strict parse and the brace-extraction parse, the
resolver returns the identity fallback in which every candidate maps to
itself title-cased; being a total function, it never raises.  The
`Jobseekers`/`Job Hunting` scenario is checked in the witness. -/
theorem get_unified_tags_fallback (strictParse jsonLoads : Str → Option TagMap)
    (tags_list : List Str) (response : Option Str)
    (hfail : response = none ∨
      ∃ c, response = some c ∧ strictParse c = none ∧
        jsonLoads (extract_json_from_text c) = none) :
    get_unified_tags strictParse jsonLoads tags_list response
      = tags_list.map (fun tag => (tag, pyTitle tag)) :=
  gutFallbackEq strictParse jsonLoads tags_list response hfail

/-- Witness for `get_unified_tags_fallback`: the concrete scenario — raw tags
`Jobseekers` and `Job Hunting` with the collaborator unreachable yield the
identity mapping. -/
theorem get_unified_tags_fallback_witness :
    get_unified_tags (fun _ => none) (fun _ => none)
        ["Jobseekers".toList, "Job Hunting".toList] none
      = [("Jobseekers".toList, "Jobseekers".toList),
         ("Job Hunting".toList, "Job Hunting".toList)] := by
  rw [get_unified_tags_fallback (fun _ => none) (fun _ => none)
    ["Jobseekers".toList, "Job Hunting".toList] none (Or.inl rfl)]
  decide

theorem tmGet_selfTitleMap (tags_list : List Str) (t : Str) (h : t ∈ tags_list) :
    tmGet (tags_list.map (fun tag => (tag, pyTitle tag))) t = some (pyTitle t) := by
  induction tags_list with
  | nil => cases h
  | cons a as ih =>
    rw [List.map_cons, tmGet]
    by_cases ha : a = t
    · rw [if_pos ha, ha]
    · rw [if_neg ha]
      rcases List.mem_cons.mp h with rfl | hmem
      · exact absurd rfl ha
      · exact ih hmem

/-- The collaborator reply used by the C5 counterexample: a well-formed JSON
object that simply does not mention the candidate tag.  `json.loads` on this
content yields `{"Other": "Mapped"}`. -/
def c5content : Str := "\x7b\x22Other\x22: \x22Mapped\x22\x7d".toList

/-- The parser behaviour of `json.loads`/`JsonOutputParser.parse` on
`c5content`: a successful parse producing the mapping `Other -> Mapped`. -/
def c5parse : Str → Option TagMap :=
  fun s => if s = c5content then some [("Other".toList, "Mapped".toList)] else none

/-- C5 counterexample: the resolver does NOT guarantee that its domain covers
the candidate set — on the success path it returns whatever mapping the
collaborator's JSON contained, unchecked.  With candidate `Jobseekers` and a
parseable reply mentioning only `Other`, the lookup of `Jobseekers` in the
returned mapping fails, refuting the claim that every candidate is in the
mapping's domain with a non-empty value. -/
theorem c5_counterexample :
    ¬(∀ (strictParse jsonLoads : Str → Option TagMap) (tags_list : List Str)
        (response : Option Str) (t : Str), t ∈ tags_list →
        ∃ v, tmGet (get_unified_tags strictParse jsonLoads tags_list response) t = some v
          ∧ v ≠ []) := by
  intro hclaim
  obtain ⟨v, hv, -⟩ := hclaim c5parse c5parse ["Jobseekers".toList] (some c5content)
    "Jobseekers".toList (by simp)
  rw [show get_unified_tags c5parse c5parse ["Jobseekers".toList] (some c5content)
      = [("Other".toList, "Mapped".toList)] by decide] at hv
  rw [show tmGet [("Other".toList, "Mapped".toList)] "Jobseekers".toList = none by decide]
    at hv
  cases hv

/-- C5 (amended): on the fallback path (collaborator call failed, or both
parses failed) the returned mapping's domain covers every candidate, and each
candidate's value is its own title-casing, non-empty whenever the candidate
is non-empty.  On the success path the mapping is the collaborator's parsed
JSON, returned unchecked, so no domain guarantee holds there. -/
theorem get_unified_tags_fallback_total (strictParse jsonLoads : Str → Option TagMap)
    (tags_list : List Str) (response : Option Str)
    (hfail : response = none ∨
      ∃ c, response = some c ∧ strictParse c = none ∧
        jsonLoads (extract_json_from_text c) = none)
    (t : Str) (hmem : t ∈ tags_list) :
    tmGet (get_unified_tags strictParse jsonLoads tags_list response) t
        = some (pyTitle t)
      ∧ (t ≠ [] → pyTitle t ≠ []) := by
  rw [gutFallbackEq strictParse jsonLoads tags_list response hfail]
  exact ⟨tmGet_selfTitleMap tags_list t hmem, fun h => pyTitle_ne_nil h⟩

/-- Witness for `get_unified_tags_fallback_total` at the concrete scenario. -/
theorem get_unified_tags_fallback_total_witness :
    tmGet (get_unified_tags (fun _ => none) (fun _ => none)
        ["Jobseekers".toList, "Job Hunting".toList] none) "Job Hunting".toList
      = some (pyTitle "Job Hunting".toList) :=
  (get_unified_tags_fallback_total (fun _ => none) (fun _ => none)
    ["Jobseekers".toList, "Job Hunting".toList] none (Or.inl rfl)
    "Job Hunting".toList (by simp)).1

/-!
## Corpus enricher (`preprocessing_service.py`, `process_posts`, lines 72–109)

Python aliasing is modelled explicitly: metadata dicts live in a `MetaStore`
(address = list index) and a raw post holds the address of its metadata dict,
if any.  `current_post = post.copy()` is a SHALLOW copy, so the enricher's
writes `current_post['metadata'][k] = v` go to the shared dict — in the model,
to the store entry at the input post's address.  Posts without a metadata key
get a fresh dict (a store allocation), leaving the input untouched.

The per-post tag set `post_specific_tags_to_unify` is a Python `set()`, whose
iteration order is implementation-defined (string hashing is randomized per
process); it enters the model as a parameter `enumOf` constrained to be a
duplicate-free enumeration (`ValidEnum`).
-/

/-- A metadata dict: the fields the enricher reads (`topic`, `hashtags`) and
writes (`line_count`, `language`, `unified_tags`), plus `tone` standing for
the other original fields that are carried through. -/
structure PMeta where
  topic : Option Str
  hashtags : Option (List Str)
  tone : Option Str
  line_count : Option Int
  language : Option Str
  unified_tags : Option (List Str)
deriving DecidableEq

def emptyPMeta : PMeta := ⟨none, none, none, none, none, none⟩

/-- The heap of metadata dicts. -/
abbrev MetaStore := List PMeta

/-- A raw input document: text, the address of its metadata dict (if the
`metadata` key is present), and its engagement counts (if present). -/
structure RawPost where
  text : Str
  metaRef : Option Nat
  engagement : Option (Int × Int × Int)
deriving DecidableEq

/-- An enriched document: it references a (possibly shared, possibly fresh)
metadata dict and always carries engagement counts (defaulted to zeros). -/
structure EnPost where
  text : Str
  metaRef : Nat
  engagement : Int × Int × Int
deriving DecidableEq

/-- Lines 88–93: the candidates added to `post_specific_tags_to_unify`, in
insertion order — the title-cased stripped topic, then each hashtag with every
`'#'` removed (`ht.replace('#','')`), stripped and title-cased. -/
def collectTags (m : PMeta) : List Str :=
  (match m.topic with
   | some t => [pyTitle (pyStrip t)]
   | none => [])
  ++ (match m.hashtags with
      | some hs => hs.map (fun ht => pyTitle (pyStrip (ht.filter (fun c => decide (c ≠ '#')))))
      | none => [])

/-- A model of a Python set's iteration order: any function producing a
duplicate-free enumeration of the collected elements. -/
def ValidEnum (enumOf : List Str → List Str) : Prop :=
  ∀ l, (enumOf l).Nodup ∧ ∀ x, x ∈ enumOf l ↔ x ∈ l

/-- Lines 95–102: project every tag of the post's tag set through the
mapping (falling back to the tag itself) and deduplicate keeping first
occurrences, in the set's iteration order. -/
def unified_tags_of (mapping : TagMap) (enumOf : List Str → List Str) (m : PMeta) :
    List Str :=
  dedupFirst ((enumOf (collectTags m)).map (fun tag => (tmGet mapping tag).getD tag))

/-- Lines 81–102: the three writes into the (shared) metadata dict. -/
def metaUpdate (mapping : TagMap) (enumOf : List Str → List Str) (text : Str)
    (m : PMeta) : PMeta :=
  ⟨m.topic, m.hashtags, m.tone, some ((pySplitNl text).length : Int), some englishS,
   some (unified_tags_of mapping enumOf m)⟩

/-- Lines 72–109 for one post: shallow copy, then in-place writes to the
shared metadata dict (or a fresh allocation when `metadata` is absent), and
engagement defaulting on the copy. -/
def enrichPost (mapping : TagMap) (enumOf : List Str → List Str)
    (store : MetaStore) (p : RawPost) : MetaStore × EnPost :=
  match p.metaRef with
  | some a =>
    (store.set a (metaUpdate mapping enumOf p.text (store.getD a emptyPMeta)),
     ⟨p.text, a, p.engagement.getD (0, 0, 0)⟩)
  | none =>
    (store ++ [metaUpdate mapping enumOf p.text emptyPMeta],
     ⟨p.text, store.length, p.engagement.getD (0, 0, 0)⟩)

/-- The enricher's main loop over the input sequence. -/
def process_posts (mapping : TagMap) (enumOf : List Str → List Str) :
    MetaStore → List RawPost → MetaStore × List EnPost
  | store, [] => (store, [])
  | store, p :: ps =>
    ((process_posts mapping enumOf (enrichPost mapping enumOf store p).1 ps).1,
     (enrichPost mapping enumOf store p).2
       :: (process_posts mapping enumOf (enrichPost mapping enumOf store p).1 ps).2)

theorem getD_set_eq {α : Type} :
    ∀ (l : List α) (i : Nat) (v d : α), i < l.length → (l.set i v).getD i d = v := by
  intro l
  induction l with
  | nil => intro i v d h; simp at h
  | cons a as ih =>
    intro i v d h
    cases i with
    | zero => rfl
    | succ n => exact ih n v d (by simpa using h)

theorem getD_set_ne {α : Type} :
    ∀ (l : List α) (i j : Nat) (v d : α), i ≠ j → (l.set i v).getD j d = l.getD j d := by
  intro l
  induction l with
  | nil => intro i j v d h; rfl
  | cons a as ih =>
    intro i j v d h
    cases i with
    | zero =>
      cases j with
      | zero => exact absurd rfl h
      | succ m => rfl
    | succ n =>
      cases j with
      | zero => rfl
      | succ m => exact ih n m v d (by omega)

theorem getD_append_left {α : Type} :
    ∀ (l l2 : List α) (i : Nat) (d : α), i < l.length → (l ++ l2).getD i d = l.getD i d := by
  intro l
  induction l with
  | nil => intro l2 i d h; simp at h
  | cons a as ih =>
    intro l2 i d h
    cases i with
    | zero => rfl
    | succ n => exact ih l2 n d (by simpa using h)

theorem enrichPost_length (mapping : TagMap) (enumOf : List Str → List Str)
    (store : MetaStore) (p : RawPost) :
    store.length ≤ (enrichPost mapping enumOf store p).1.length := by
  cases hm : p.metaRef with
  | some a => simp [enrichPost, hm]
  | none => simp [enrichPost, hm]

/-- Addresses outside a batch's reference set are untouched by the loop. -/
theorem process_posts_untouched (mapping : TagMap) (enumOf : List Str → List Str) :
    ∀ (ps : List RawPost) (store : MetaStore) (a : Nat), a < store.length →
      a ∉ ps.filterMap RawPost.metaRef →
      (process_posts mapping enumOf store ps).1.getD a emptyPMeta
        = store.getD a emptyPMeta := by
  intro ps
  induction ps with
  | nil => intro store a _ _; rfl
  | cons q qs ih =>
    intro store a ha hfm
    cases hq : q.metaRef with
    | some b =>
      simp only [List.filterMap_cons, hq, List.mem_cons] at hfm
      push_neg at hfm
      have hs1 : (enrichPost mapping enumOf store q).1
          = store.set b (metaUpdate mapping enumOf q.text (store.getD b emptyPMeta)) := by
        simp [enrichPost, hq]
      rw [process_posts, hs1, ih _ a (by simpa using ha) hfm.2,
        getD_set_ne store b a _ _ (fun hc => hfm.1 hc.symm)]
    | none =>
      simp only [List.filterMap_cons, hq] at hfm
      have hs1 : (enrichPost mapping enumOf store q).1
          = store ++ [metaUpdate mapping enumOf q.text emptyPMeta] := by
        simp [enrichPost, hq]
      rw [process_posts, hs1, ih _ a (by simp; omega) hfm,
        getD_append_left store _ a _ ha]

/-- C3 (amended): the enricher preserves the number and order of documents
(output texts = input texts, in order) and is deterministic — a pure function
of the input, mapping, and set-enumeration — and it never touches the
original `topic`/`hashtags`/other carried fields of any stored metadata dict;
BUT, because `post.copy()` is shallow, for every input document that already
has a metadata dict the enricher writes `line_count`, `language` and
`unified_tags` INTO that shared dict, mutating the input document's metadata
in place (documents without a metadata key get a fresh dict instead). -/
theorem process_posts_shallow_copy (mapping : TagMap) (enumOf : List Str → List Str) :
    ∀ (ps : List RawPost) (store : MetaStore),
      (∀ p ∈ ps, ∀ a, p.metaRef = some a → a < store.length) →
      (ps.filterMap RawPost.metaRef).Nodup →
      ((process_posts mapping enumOf store ps).2.map EnPost.text
          = ps.map RawPost.text) ∧
      (∀ a, a < store.length →
        ((process_posts mapping enumOf store ps).1.getD a emptyPMeta).topic
            = (store.getD a emptyPMeta).topic ∧
        ((process_posts mapping enumOf store ps).1.getD a emptyPMeta).hashtags
            = (store.getD a emptyPMeta).hashtags ∧
        ((process_posts mapping enumOf store ps).1.getD a emptyPMeta).tone
            = (store.getD a emptyPMeta).tone) ∧
      (∀ p ∈ ps, ∀ a, p.metaRef = some a →
        (process_posts mapping enumOf store ps).1.getD a emptyPMeta
          = metaUpdate mapping enumOf p.text (store.getD a emptyPMeta)) := by
  intro ps
  induction ps with
  | nil =>
    intro store _ _
    exact ⟨rfl, fun a _ => ⟨rfl, rfl, rfl⟩, fun p hp => absurd hp (List.not_mem_nil p)⟩
  | cons p ps ih =>
    intro store href hdist
    cases hm : p.metaRef with
    | some b =>
      have hb : b < store.length := href p (List.mem_cons_self p ps) b hm
      have hs1 : (enrichPost mapping enumOf store p).1
          = store.set b (metaUpdate mapping enumOf p.text (store.getD b emptyPMeta)) := by
        simp [enrichPost, hm]
      have hp1 : (enrichPost mapping enumOf store p).2
          = ⟨p.text, b, p.engagement.getD (0, 0, 0)⟩ := by
        simp [enrichPost, hm]
      simp only [List.filterMap_cons, hm] at hdist
      have hnb : b ∉ ps.filterMap RawPost.metaRef := (List.nodup_cons.mp hdist).1
      have hdist' : (ps.filterMap RawPost.metaRef).Nodup := (List.nodup_cons.mp hdist).2
      set store1 := store.set b (metaUpdate mapping enumOf p.text (store.getD b emptyPMeta))
        with hstore1def
      have hlen1 : store1.length = store.length := by
        rw [hstore1def]
        exact List.length_set store b _
      have href' : ∀ q ∈ ps, ∀ a, q.metaRef = some a → a < store1.length := by
        intro q hq a ha
        rw [hlen1]
        exact href q (List.mem_cons_of_mem p hq) a ha
      have hih := ih store1 href' hdist'
      have hout : (process_posts mapping enumOf store (p :: ps)).1
          = (process_posts mapping enumOf store1 ps).1 := by
        simp only [process_posts]
        rw [hs1]
      refine ⟨?_, ?_, ?_⟩
      · simp only [process_posts, List.map_cons]
        rw [hs1, hp1, hih.1]
      · intro a ha
        rw [hout]
        have h2 := hih.2.1 a (by rw [hlen1]; exact ha)
        by_cases hab : a = b
        · subst hab
          have hsg : store1.getD a emptyPMeta
              = metaUpdate mapping enumOf p.text (store.getD a emptyPMeta) := by
            rw [hstore1def]
            exact getD_set_eq store a _ _ ha
          exact ⟨by rw [h2.1, hsg]; rfl, by rw [h2.2.1, hsg]; rfl, by rw [h2.2.2, hsg]; rfl⟩
        · have hsg : store1.getD a emptyPMeta = store.getD a emptyPMeta := by
            rw [hstore1def]
            exact getD_set_ne store b a _ _ (fun hc => hab hc.symm)
          exact ⟨by rw [h2.1, hsg], by rw [h2.2.1, hsg], by rw [h2.2.2, hsg]⟩
      · intro q hq a ha
        rw [hout]
        rcases List.mem_cons.mp hq with rfl | hqs
        · rw [hm] at ha
          injection ha with hab
          subst hab
          rw [process_posts_untouched mapping enumOf ps store1 b
            (by rw [hlen1]; exact hb) hnb]
          rw [hstore1def]
          exact getD_set_eq store b _ _ hb
        · have ha' : a ∈ ps.filterMap RawPost.metaRef :=
            List.mem_filterMap.mpr ⟨q, hqs, ha⟩
          have hab : a ≠ b := fun hc => hnb (hc ▸ ha')
          rw [hih.2.2 q hqs a ha, hstore1def,
            getD_set_ne store b a _ _ (fun hc => hab hc.symm)]
    | none =>
      have hs1 : (enrichPost mapping enumOf store p).1
          = store ++ [metaUpdate mapping enumOf p.text emptyPMeta] := by
        simp [enrichPost, hm]
      have hp1 : (enrichPost mapping enumOf store p).2
          = ⟨p.text, store.length, p.engagement.getD (0, 0, 0)⟩ := by
        simp [enrichPost, hm]
      simp only [List.filterMap_cons, hm] at hdist
      set store1 := store ++ [metaUpdate mapping enumOf p.text emptyPMeta] with hstore1def
      have hlen1 : store1.length = store.length + 1 := by
        rw [hstore1def]
        simp
      have href' : ∀ q ∈ ps, ∀ a, q.metaRef = some a → a < store1.length := by
        intro q hq a ha
        rw [hlen1]
        exact Nat.lt_succ_of_lt (href q (List.mem_cons_of_mem p hq) a ha)
      have hih := ih store1 href' hdist
      have hout : (process_posts mapping enumOf store (p :: ps)).1
          = (process_posts mapping enumOf store1 ps).1 := by
        simp only [process_posts]
        rw [hs1]
      refine ⟨?_, ?_, ?_⟩
      · simp only [process_posts, List.map_cons]
        rw [hs1, hp1, hih.1]
      · intro a ha
        rw [hout]
        have h2 := hih.2.1 a (by rw [hlen1]; omega)
        have hsg : store1.getD a emptyPMeta = store.getD a emptyPMeta := by
          rw [hstore1def]
          exact getD_append_left store _ a _ ha
        exact ⟨by rw [h2.1, hsg], by rw [h2.2.1, hsg], by rw [h2.2.2, hsg]⟩
      · intro q hq a ha
        rw [hout]
        rcases List.mem_cons.mp hq with rfl | hqs
        · rw [hm] at ha
          cases ha
        · have haval : a < store.length :=
            href q hq a ha
          rw [hih.2.2 q hqs a ha, hstore1def, getD_append_left store _ a _ haval]

/-- A concrete input metadata dict (topic `B`, hashtag `#A`, tone kept). -/
def c3meta : PMeta :=
  ⟨some "B".toList, some ["#A".toList], some "casual".toList, none, none, none⟩

def c3store : MetaStore := [c3meta]

def c3posts : List RawPost := [⟨"hello".toList, some 0, none⟩]

/-- C3 counterexample: after enrichment the input document's metadata dict has
changed in place (`line_count`, `language`, `unified_tags` were written into
the dict shared through the shallow `post.copy()`), so enrichment DOES mutate
the input document. -/
theorem c3_counterexample :
    (process_posts [] (fun l => dedupFirst l) c3store c3posts).1.getD 0 emptyPMeta
      ≠ c3store.getD 0 emptyPMeta := by
  decide

/-- Witness for `process_posts_shallow_copy` on the concrete one-post corpus:
ordering/content of the output and the exact in-place update of the shared
metadata dict. -/
theorem process_posts_shallow_copy_witness :
    ((process_posts [] (fun l => dedupFirst l) c3store c3posts).2.map EnPost.text
        = c3posts.map RawPost.text) ∧
    (process_posts [] (fun l => dedupFirst l) c3store c3posts).1.getD 0 emptyPMeta
      = metaUpdate [] (fun l => dedupFirst l) "hello".toList
          (c3store.getD 0 emptyPMeta) := by
  have h := process_posts_shallow_copy [] (fun l => dedupFirst l) c3posts c3store
    (by
      intro p hp a ha
      simp only [c3posts, List.mem_singleton] at hp
      subst hp
      have ha' : some 0 = some a := ha
      injection ha' with hh
      simp [c3store, ← hh])
    (by decide)
  exact ⟨h.1, h.2.2 ⟨"hello".toList, some 0, none⟩
    (by simp [c3posts]) 0 rfl⟩

/-- The tag set of a document with topic `B` and hashtag `#A`: insertion
order is `[B, A]`, but a set may enumerate it as `[A, B]`. -/
def c7meta : PMeta := ⟨some "B".toList, some ["#A".toList], none, none, none, none⟩

/-- A legitimate set-enumeration (duplicate-free, same elements) that reverses
first-seen order. -/
def revEnum : List Str → List Str := fun l => (dedupFirst l).reverse

theorem validEnum_dedupFirst : ValidEnum (fun l => dedupFirst l) :=
  fun l => ⟨nodup_dedupFirst l, fun x => mem_dedupFirst x l⟩

theorem validEnum_revEnum : ValidEnum revEnum := by
  intro l
  constructor
  · exact List.nodup_reverse.mpr (nodup_dedupFirst l)
  · intro x
    show x ∈ (dedupFirst l).reverse ↔ x ∈ l
    rw [List.mem_reverse]
    exact mem_dedupFirst x l

/-- C7 counterexample: `unified_tags` is built by iterating a Python `set`,
whose enumeration order is implementation-defined; under the legitimate
enumeration `revEnum` the result is `[A, B]` while first-seen collection
order demands `[B, A]`, so the claim's "preserving first-seen order of that
collection" is false. -/
theorem c7_counterexample :
    ¬(∀ (mapping : TagMap) (enumOf : List Str → List Str) (m : PMeta),
        ValidEnum enumOf →
        unified_tags_of mapping enumOf m
          = dedupFirst ((collectTags m).map (fun tag => (tmGet mapping tag).getD tag))) := by
  intro hclaim
  have h := hclaim [] revEnum c7meta validEnum_revEnum
  exact absurd h (by decide)

/-- C7 (amended): `unified_tags` contains exactly the projections (through the
mapping, with the normalized tag itself as fallback) of the document's
collected topic+hashtag tags, without duplicates — but in the set's
enumeration order, which need not be first-seen collection order. -/
theorem unified_tags_elements (mapping : TagMap) (enumOf : List Str → List Str)
    (m : PMeta) (henum : ValidEnum enumOf) :
    (unified_tags_of mapping enumOf m).Nodup ∧
    (∀ x, x ∈ unified_tags_of mapping enumOf m ↔
        x ∈ (collectTags m).map (fun tag => (tmGet mapping tag).getD tag)) := by
  refine ⟨nodup_dedupFirst _, ?_⟩
  intro x
  rw [unified_tags_of, mem_dedupFirst]
  simp only [List.mem_map]
  constructor
  · rintro ⟨y, hy, rfl⟩
    exact ⟨y, ((henum (collectTags m)).2 y).mp hy, rfl⟩
  · rintro ⟨y, hy, rfl⟩
    exact ⟨y, ((henum (collectTags m)).2 y).mpr hy, rfl⟩

/-- Witness for `unified_tags_elements` at a concrete document and a concrete
valid enumeration. -/
theorem unified_tags_elements_witness :
    (unified_tags_of [] (fun l => dedupFirst l) c7meta).Nodup :=
  (unified_tags_elements [] (fun l => dedupFirst l) c7meta validEnum_dedupFirst).1

/-- Witness for `is_valid_iff`: on a concretely valid post the equivalence
yields the first predicate of the characterization. -/
theorem is_valid_iff_witness : pyStrip c10cex.text ≠ [] :=
  ((is_valid_iff c10cex).mp (by decide)).1
